import Mathlib

/-!
The package chanrpc: in-process mailbox RPC (server call queue, client reply queues).

A shallow embedding of `chanrpc/chanrpc.go` and of the parts of
`module/module_skeleton.go` that construct and drive it.

Modelling conventions

* Go `interface{}` values are `Value α`: `nil`, a datum of the payload type `α`,
  or a function value of type `func(interface{}, error)` (a callback), named by a
  number.  Call ids are an arbitrary type `ι` with decidable equality (Go map keys).
* A Go channel is its buffer (a list, oldest element first) and its capacity.
  Reply channels live in a heap indexed by `ChanId`, because call envelopes carry
  a reference to the channel the reply goes to; a nil channel is `none`.
  No code of the package closes a reply channel (`Client.Close` is empty), so
  reply channels have no closed flag; the call channel of a server has one.
* A step of the model is atomic.  A timed `select` between a send and
  `time.After(d)` is resolved from the channel, the duration `d` and a `Tick`,
  the scheduler's share: how long after arming the timer the select polls its
  cases, and which case the runtime picks when both are ready.  The timer case is
  ready when `d` is not more than the elapsed time (at once when `d` is zero or
  negative); the send case is ready when the channel has room, or is closed (it
  then panics).  With only the send ready the send is taken, with both ready the
  runtime's pick decides, and a channel that stays without room for the whole
  window gives the timeout branch.
* A blocking send on a call channel without room parks its envelope in the
  channel's queue of waiting senders; a receive takes the oldest buffered
  envelope and moves the oldest parked one into the buffer, or takes the parked
  one directly when nothing is buffered (capacity zero).  Closing the channel
  makes every parked send panic.  `woken` counts the parked sends a receive has
  completed, so that a parked sender knows when its own send is over.
* Effects that leave the package (callbacks being run, handlers being invoked,
  delivery attempts) are recorded in a trace carried by the state.
* `panic`/`recover` is explicit: a function body yields `Except` and the
  deferred function is applied to the raised value.
* `conf.LenStackBuf` belongs to a package outside these sources and is a parameter.
* Handlers are functions of their argument list; function values are non-nil.  A
  handler or callback that calls back into the mailbox is a further step of the
  model, not part of the step that runs it.
-/

namespace chanrpc

abbrev ChanId := Nat

abbrev CbId := Nat

/-- Go `interface{}` values that travel through the mailbox. -/
inductive Value (α : Type) where
  | nil
  | data (a : α)
  | func (k : CbId)
  deriving DecidableEq, Repr

/-- Values recovered by a deferred `recover()`. -/
inductive PanicVal (ι α : Type) where
  | noFunction (id : ι)
  | raised (v : Value α)
  deriving DecidableEq, Repr

/-- Go `error` values built by the package, plus application errors. -/
inductive Err (ι α : Type) where
  | notRegistered (id : ι)
  | tooManyCalls
  | serverTimeout
  | sendOnClosed
  | recovered (r : PanicVal ι α) (stack : Bool)
  | noMatching (id : ι)
  | app (msg : String)
  deriving DecidableEq, Repr

/-- What running a handler `func([]interface{}) (interface{}, error)` does. -/
inductive Outcome (ι α : Type) where
  | returns (ret : Value α) (err : Option (Err ι α))
  | panics (r : Value α)
  deriving DecidableEq, Repr

abbrev Handler (ι α : Type) := List (Value α) → Outcome ι α

/-- RpcCommon is the pair of fields shared by server and client. -/
structure RpcCommon where
  timeout : Int
  SkipCounter : Int
  deriving DecidableEq, Repr

/-- CallInfo is a call envelope. -/
structure CallInfo (ι α : Type) where
  id : ι
  args : List (Value α)
  chanRet : Option ChanId
  cb : Option CbId
  deriving DecidableEq, Repr

/-- RetInfo is a reply envelope. -/
structure RetInfo (ι α : Type) where
  ret : Value α
  err : Option (Err ι α)
  cb : Option CbId
  deriving DecidableEq, Repr

/-- A buffered channel of replies. -/
structure RetChan (ι α : Type) where
  buf : List (RetInfo ι α)
  cap : Nat
  deriving DecidableEq, Repr

/-- Server: handler table, call channel (buffer, capacity, closed flag, envelopes
of the parked blocking senders, number of parked sends completed by a receive). -/
structure Server (ι α : Type) extends RpcCommon where
  functions : ι → Option (Handler ι α)
  ChanCall : List (CallInfo ι α)
  bufsize : Nat
  closed : Bool
  sendq : List (CallInfo ι α)
  woken : Nat

/-- Client: references to its two reply channels, counter and admission flag. -/
structure Client extends RpcCommon where
  chanSyncRet : ChanId
  ChanAsynRet : Option ChanId
  pendingAsynCall : Int
  AllowOverFlood : Bool
  deriving DecidableEq, Repr

/-- Observable events. -/
inductive Event (ι α : Type) where
  | exec (ci : CallInfo ι α)
  | invoke (id : ι) (args : List (Value α))
  | deliver (ci : CallInfo ι α) (ri : RetInfo ι α)
  | callback (k : CbId) (ret : Value α) (err : Option (Err ι α))
  deriving DecidableEq, Repr

/-- One server, one client, the heap of reply channels and the trace. -/
structure State (ι α : Type) where
  s : Server ι α
  c : Client
  chans : ChanId → RetChan ι α
  next : ChanId
  trace : List (Event ι α)

/-- The scheduler's share in one timed `select`: nanoseconds between arming the
timer and polling the cases, and whether the runtime picks the timer case when
both cases are ready. -/
structure Tick where
  elapsed : Nat
  timerFirst : Bool
  deriving DecidableEq, Repr

/-- Result of an operation that may return, wait for ever, or panic. -/
inductive Res (σ ρ : Type) where
  | done (st : σ) (r : ρ)
  | blocked (st : σ)
  | panicked (st : σ) (msg : String)

variable {ι α : Type}

/-- The state an operation ended in. -/
def Res.state {σ ρ : Type} : Res σ ρ → σ
  | Res.done st _ => st
  | Res.blocked st => st
  | Res.panicked st _ => st

/-- The select takes the timer case although its send case is ready: the timer of
duration `d` has fired by the time the cases are polled and the runtime picks it. -/
def timerWins (d : Int) (t : Tick) : Bool :=
  decide (d ≤ (t.elapsed : Int)) && t.timerFirst

/-- A select polled as soon as its timer is armed, the send case preferred. -/
def prompt : Tick := ⟨0, false⟩

/-- The call channel has room in its buffer. -/
def callRoom (st : State ι α) : Bool :=
  decide (st.s.ChanCall.length < st.s.bufsize)

/-- The call channel after a send of `ci` into its buffer. -/
def enqueue (st : State ι α) (ci : CallInfo ι α) : State ι α :=
  { st with s := { st.s with ChanCall := st.s.ChanCall ++ [ci] } }

/-- The call channel after a blocking sender has parked `ci` on it. -/
def park (st : State ι α) (ci : CallInfo ι α) : State ι α :=
  { st with s := { st.s with sendq := st.s.sendq ++ [ci] } }

/-- A receive from the call channel: the oldest buffered envelope, the oldest
parked sender moving into the buffer; with nothing buffered, the oldest parked
envelope directly; `none` when there is nothing to receive. -/
def recvCall (st : State ι α) : Option (CallInfo ι α × State ι α) :=
  match st.s.ChanCall, st.s.sendq with
  | ci :: rest, [] => some (ci, { st with s := { st.s with ChanCall := rest } })
  | ci :: rest, cj :: more =>
    some (ci, { st with s := { st.s with ChanCall := rest ++ [cj], sendq := more,
                                          woken := st.s.woken + 1 } })
  | [], cj :: more =>
    some (cj, { st with s := { st.s with sendq := more, woken := st.s.woken + 1 } })
  | [], [] => none

/-- Replace the channel stored at `k`. -/
def setChan (chans : ChanId → RetChan ι α) (k : ChanId) (ch : RetChan ι α) :
    ChanId → RetChan ι α :=
  fun j => if j = k then ch else chans j

/-- Capacity of a possibly nil channel: `cap` of a nil channel is 0. -/
def capOf (chans : ChanId → RetChan ι α) : Option ChanId → Nat
  | none => 0
  | some k => (chans k).cap

/-- The channel has room for one more element. -/
def hasRoom (chans : ChanId → RetChan ι α) (k : ChanId) : Bool :=
  decide ((chans k).buf.length < (chans k).cap)

/-- Append `ri` to the buffer of channel `k`. -/
def push (chans : ChanId → RetChan ι α) (k : ChanId) (ri : RetInfo ι α) :
    ChanId → RetChan ι α :=
  setChan chans k ⟨(chans k).buf ++ [ri], (chans k).cap⟩

/-- Allocation `make(chan *RetInfo, n)`: a fresh empty channel at the next free id. -/
def makeChan (st : State ι α) (n : Nat) : State ι α × ChanId :=
  ({ st with chans := setChan st.chans st.next ⟨[], n⟩, next := st.next + 1 }, st.next)

/-- NewServer: empty table, empty call channel of capacity `bufsize`.
`make` with a negative size panics. -/
def NewServer (bufsize : Int) (timeout : Int) : Option (Server ι α) :=
  if bufsize < 0 then none
  else some ⟨⟨timeout, 0⟩, fun _ => none, [], bufsize.toNat, false, [], 0⟩

/-- Register: panics when `id` is already a key of the table, else stores `f`. -/
def Server.Register [DecidableEq ι] (s : Server ι α) (id : ι) (f : Handler ι α) :
    Res (Server ι α) Unit :=
  match s.functions id with
  | some _ => Res.panicked s "function id: already registered"
  | none =>
    Res.done { s with functions := fun j => if j = id then some f else s.functions j } ()

/-- Server.ret: a delivery attempt.  A nil destination returns at once; otherwise
the callback is copied into the reply and the select between the send and
`time.After(time.Millisecond * s.timeout)` runs: the reply is sent when the
destination has room and the timer case does not win, and dropped with
`SkipCounter++` otherwise. -/
def Server.ret (t : Tick) (st : State ι α) (ci : CallInfo ι α) (ri : RetInfo ι α) :
    State ι α × Option (Err ι α) :=
  let st1 : State ι α := { st with trace := st.trace ++ [Event.deliver ci ri] }
  match ci.chanRet with
  | none => (st1, none)
  | some k =>
    let ri1 : RetInfo ι α := ⟨ri.ret, ri.err, ci.cb⟩
    if hasRoom st1.chans k && !timerWins (1000000 * st1.s.timeout) t then
      ({ st1 with chans := push st1.chans k ri1 }, none)
    else
      ({ st1 with s := { st1.s with SkipCounter := st1.s.SkipCounter + 1 } }, none)

/-- Body of Exec (everything under the deferred recover): table lookup, the panic
for a missing handler, the handler invocation, the reply. -/
def Server.Exec.body (t : Tick) (st : State ι α) (ci : CallInfo ι α) :
    State ι α × Except (PanicVal ι α) (Option (Err ι α)) :=
  match st.s.functions ci.id with
  | none => (st, Except.error (PanicVal.noFunction ci.id))
  | some f =>
    let st1 : State ι α := { st with trace := st.trace ++ [Event.invoke ci.id ci.args] }
    match f ci.args with
    | Outcome.panics r => (st1, Except.error (PanicVal.raised r))
    | Outcome.returns ret err =>
      let out := Server.ret t st1 ci ⟨ret, err, none⟩
      (out.1, Except.ok out.2)

/-- Exec: run the body; the deferred function turns a recovered value `r` into the
returned error (with a stack dump when `LenStackBuf > 0`) and sends a reply whose
error is the formatting of `r`. -/
def Server.Exec (LenStackBuf : Int) (t : Tick) (st : State ι α) (ci : CallInfo ι α) :
    State ι α × Option (Err ι α) :=
  let st0 : State ι α := { st with trace := st.trace ++ [Event.exec ci] }
  match Server.Exec.body t st0 ci with
  | (st1, Except.ok err) => (st1, err)
  | (st1, Except.error r) =>
    let out := Server.ret t st1 ci ⟨Value.nil, some (Err.recovered r false), none⟩
    (out.1, some (Err.recovered r (decide (0 < LenStackBuf))))

/-- The reply Exec hands to Server.ret, and the error Exec returns. -/
def Server.Exec.reply (L : Int) (st : State ι α) (ci : CallInfo ι α) :
    RetInfo ι α × Option (Err ι α) :=
  match st.s.functions ci.id with
  | none => (⟨Value.nil, some (Err.recovered (PanicVal.noFunction ci.id) false), none⟩,
      some (Err.recovered (PanicVal.noFunction ci.id) (decide (0 < L))))
  | some f =>
    match f ci.args with
    | Outcome.panics r => (⟨Value.nil, some (Err.recovered (PanicVal.raised r) false), none⟩,
        some (Err.recovered (PanicVal.raised r) (decide (0 < L))))
    | Outcome.returns ret err => (⟨ret, err, none⟩, none)

/-- The events Exec records before the delivery attempt. -/
def Server.Exec.events (st : State ι α) (ci : CallInfo ι α) : List (Event ι α) :=
  match st.s.functions ci.id with
  | none => [Event.exec ci]
  | some _ => [Event.exec ci, Event.invoke ci.id ci.args]

/-- The loop `for ci := range s.ChanCall` of Close on a closed channel: receive
the oldest call, execute it, until the buffer is empty.  The `i`-th Exec of the
loop runs under `ticks i`. -/
def Server.Close.range (LenStackBuf : Int) (ticks : Nat → Tick) :
    Nat → List (CallInfo ι α) → State ι α → State ι α
  | _, [], st => st
  | i, ci :: rest, st =>
    let st1 : State ι α := { st with s := { st.s with ChanCall := rest } }
    Server.Close.range LenStackBuf ticks (i + 1) rest
      (Server.Exec LenStackBuf (ticks i) st1 ci).1

/-- The call channel after `close`: closed, every parked send panicking. -/
def closeChan (st : State ι α) : State ι α :=
  { st with s := { st.s with closed := true, sendq := [] } }

/-- Close: close the call channel (closing a closed channel panics), then execute
every call still buffered. -/
def Server.Close (LenStackBuf : Int) (ticks : Nat → Tick) (st : State ι α) :
    Res (State ι α) Unit :=
  if st.s.closed then Res.panicked st "close of closed channel"
  else
    Res.done (Server.Close.range LenStackBuf ticks 0 (closeChan st).s.ChanCall (closeChan st)) ()

/-- NewClient: a one-slot synchronous reply channel, an asynchronous reply
channel only when `size > 0` (nil otherwise), zero counters. -/
def NewClient (st : State ι α) (size : Int) (timeout : Int) : State ι α :=
  let a := makeChan st 1
  if 0 < size then
    let b := makeChan a.1 size.toNat
    { b.1 with c := ⟨⟨timeout, 0⟩, a.2, some b.2, 0, false⟩ }
  else
    { a.1 with c := ⟨⟨timeout, 0⟩, a.2, none, 0, false⟩ }

/-- Function validate: table lookup; a missing handler is an error value. -/
def validate (s : Server ι α) (id : ι) : Option (Handler ι α) × Option (Err ι α) :=
  match s.functions id with
  | none => (none, some (Err.notRegistered id))
  | some f => (some f, none)

/-- The timeout branch of the select in Client.call: `c.SkipCounter++` and
`c.pendingAsynCall--`. -/
def timeoutBranch (st : State ι α) : State ι α :=
  { st with c := { st.c with SkipCounter := st.c.SkipCounter + 1,
                             pendingAsynCall := st.c.pendingAsynCall - 1 } }

/-- Body of Client.call under its deferred recover.  A send on a closed channel
panics with a runtime error (`Except.error`), also inside `select`.  A blocking
send goes into the buffer when there is room and parks otherwise (`blocked`).
The timed send is the select against `time.After(c.timeout)`: the timeout branch
when the timer case wins or the channel stays full, the send otherwise. -/
def Client.call.body (st : State ι α) (ci : CallInfo ι α) (block : Bool) (t : Tick) :
    Res (State ι α) (Except (Err ι α) (Option (Err ι α))) :=
  if block then
    if st.s.closed then Res.done st (Except.error Err.sendOnClosed)
    else if callRoom st then Res.done (enqueue st ci) (Except.ok none)
    else Res.blocked (park st ci)
  else
    if timerWins st.c.timeout t then
      Res.done (timeoutBranch st) (Except.ok (some Err.serverTimeout))
    else if st.s.closed then Res.done st (Except.error Err.sendOnClosed)
    else if callRoom st then Res.done (enqueue st ci) (Except.ok none)
    else Res.done (timeoutBranch st) (Except.ok (some Err.serverTimeout))

/-- Client.call: the body, with a recovered runtime error returned as `err`. -/
def Client.call (st : State ι α) (ci : CallInfo ι α) (block : Bool) (t : Tick) :
    Res (State ι α) (Option (Err ι α)) :=
  match Client.call.body st ci block t with
  | Res.done st1 (Except.ok err) => Res.done st1 err
  | Res.done st1 (Except.error r) => Res.done st1 (some r)
  | Res.blocked st1 => Res.blocked st1
  | Res.panicked st1 m => Res.panicked st1 m

/-- The receive `ri := <-c.chanSyncRet` and the return of SynCall. -/
def Client.SynCall.recv (st : State ι α) : Res (State ι α) (Value α × Option (Err ι α)) :=
  match (st.chans st.c.chanSyncRet).buf with
  | [] => Res.blocked st
  | ri :: rest =>
    Res.done { st with chans := (setChan st.chans st.c.chanSyncRet
      ⟨rest, (st.chans st.c.chanSyncRet).cap⟩) } (ri.ret, ri.err)

/-- Client.SynCall: validate, blocking submission, then receive from the
synchronous reply channel.  `env` is what the rest of the process (the server's
loop) does while the caller waits.  A send that had to park is over once a
receive has completed it (then the reply is awaited), fails when the channel was
closed first, and is still waiting otherwise. -/
def Client.SynCall (env : State ι α → State ι α) (st : State ι α) (id : ι)
    (args : List (Value α)) : Res (State ι α) (Value α × Option (Err ι α)) :=
  match validate st.s id with
  | (_, some err) => Res.done st (Value.nil, some err)
  | (_, none) =>
    match Client.call st ⟨id, args, some st.c.chanSyncRet, none⟩ true prompt with
    | Res.panicked st1 m => Res.panicked st1 m
    | Res.done st1 (some err) => Res.done st1 (Value.nil, some err)
    | Res.done st1 none => Client.SynCall.recv (env st1)
    | Res.blocked st1 =>
      if st.s.woken + st.s.sendq.length < (env st1).s.woken then Client.SynCall.recv (env st1)
      else if (env st1).s.closed then Res.done (env st1) (Value.nil, some Err.sendOnClosed)
      else Res.blocked (env st1)

/-- Cb: decrement the pending counter, then run the carried callback if there is
one; a panic of the callback is recovered and only logged. -/
def Client.Cb (st : State ι α) (ri : RetInfo ι α) : State ι α :=
  let st1 : State ι α :=
    { st with c := { st.c with pendingAsynCall := st.c.pendingAsynCall - 1 } }
  match ri.cb with
  | some k => { st1 with trace := st1.trace ++ [Event.callback k ri.ret ri.err] }
  | none => st1

/-- The blocking send `c.ChanAsynRet <- ri`: `none` when it cannot proceed (nil
channel, or no room). -/
def sendAsynRet (st : State ι α) (ri : RetInfo ι α) : Option (State ι α) :=
  match st.c.ChanAsynRet with
  | none => none
  | some q =>
    if hasRoom st.chans q then some { st with chans := push st.chans q ri }
    else none

/-- The trailing-argument convention of AsynCall: a last argument of type
`func(interface{}, error)` is the callback, anything else is an argument. -/
def splitArgs (_args : List (Value α)) (last : Value α) : List (Value α) × Option CbId :=
  match last with
  | Value.func k => (_args.dropLast, some k)
  | _ => (_args, none)

/-- The client after `c.pendingAsynCall++`. -/
def bump (st : State ι α) : State ι α :=
  { st with c := { st.c with pendingAsynCall := st.c.pendingAsynCall + 1 } }

/-- Client.AsynCall; `t` is the scheduler's share in the timed submission. -/
def Client.AsynCall (st : State ι α) (id : ι) (_args : List (Value α)) (t : Tick) :
    Res (State ι α) (Option (Err ι α)) :=
  match _args.getLast? with
  | none => Res.panicked st "callback function not found"
  | some last =>
    let args := (splitArgs _args last).1
    let _cb := (splitArgs _args last).2
    let st1 : State ι α := bump st
    if st1.c.AllowOverFlood = false ∧
        (capOf st1.chans st1.c.ChanAsynRet : Int) ≤ st1.c.pendingAsynCall then
      Res.done (Client.Cb st1 ⟨Value.nil, some Err.tooManyCalls, _cb⟩) none
    else
      match validate st1.s id with
      | (_, some err) =>
        match sendAsynRet st1 ⟨Value.nil, some err, _cb⟩ with
        | none => Res.blocked st1
        | some st2 => Res.done st2 (some (Err.noMatching id))
      | (_, none) =>
        match Client.call st1 ⟨id, args, st1.c.ChanAsynRet, _cb⟩ false t with
        | Res.blocked st2 => Res.blocked st2
        | Res.panicked st2 m => Res.panicked st2 m
        | Res.done st2 none => Res.done st2 none
        | Res.done st2 (some err) =>
          match sendAsynRet st2 ⟨Value.nil, some err, _cb⟩ with
          | none => Res.blocked st2
          | some st3 => Res.done st3 (some err)

/-- Package-level SynCall: a throwaway client with no asynchronous capacity. -/
def SynCall (env : State ι α → State ι α) (st : State ι α) (id : ι)
    (args : List (Value α)) : Res (State ι α) (Value α × Option (Err ι α)) :=
  Client.SynCall env (NewClient st 0 1000000000) id args

end chanrpc

namespace module

open chanrpc

variable {ι α : Type}

/-- Skeleton: the configuration fields of a module. -/
structure Skeleton where
  GoLen : Int
  TimerDispatcherLen : Int
  AsynCallLen : Int
  ChanRPCLen : Int
  TimeoutAsynRet : Int
  deriving DecidableEq, Repr

/-- The defaulting at the head of Skeleton.Init. -/
def Skeleton.Init.defaults (sk : Skeleton) : Skeleton :=
  ⟨if sk.GoLen ≤ 0 then 0 else sk.GoLen,
   if sk.TimerDispatcherLen ≤ 0 then 0 else sk.TimerDispatcherLen,
   if sk.AsynCallLen ≤ 0 then 1 else sk.AsynCallLen,
   if sk.ChanRPCLen ≤ 0 then 1 else sk.ChanRPCLen,
   if sk.TimeoutAsynRet ≤ 0 then 10 else sk.TimeoutAsynRet⟩

/-- Skeleton.Init: defaults, then the client and the data server are built.  The
command server is built by the same NewServer call and is returned beside the
state; the worker pool and the timer dispatcher are outside these sources. -/
def Skeleton.Init (sk : Skeleton) (st : State ι α) :
    Option (Skeleton × State ι α × Server ι α) :=
  let sk1 := Skeleton.Init.defaults sk
  let st1 := NewClient st sk1.AsynCallLen 10
  match (NewServer sk1.ChanRPCLen sk1.TimeoutAsynRet : Option (Server ι α)),
      (NewServer sk1.ChanRPCLen sk1.TimeoutAsynRet : Option (Server ι α)) with
  | some sv, some cmd => some (sk1, { st1 with s := sv }, cmd)
  | _, _ => none

/-- The branch `case ri := <-s.client.ChanAsynRet: s.client.Cb(ri)` of
Skeleton.Run; `none` when there is nothing to receive. -/
def Skeleton.Run.asynRet (st : State ι α) : Option (State ι α) :=
  match st.c.ChanAsynRet with
  | none => none
  | some q =>
    match (st.chans q).buf with
    | [] => none
    | ri :: rest =>
      some (Client.Cb { st with chans := setChan st.chans q ⟨rest, (st.chans q).cap⟩ } ri)

/-- The branch `case ci := <-s.server.ChanCall: s.server.Exec(ci)` of
Skeleton.Run; `none` when there is nothing to receive. -/
def Skeleton.Run.chanCall (LenStackBuf : Int) (t : Tick) (st : State ι α) :
    Option (State ι α) :=
  match recvCall st with
  | none => none
  | some (ci, st1) => some (Server.Exec LenStackBuf t st1 ci).1

/-- The reply branch of the loop taken at most `n` times in a row. -/
def Skeleton.Run.drain : Nat → State ι α → State ι α
  | 0, st => st
  | n + 1, st =>
    match Skeleton.Run.asynRet st with
    | none => st
    | some st1 => Skeleton.Run.drain n st1

/-- One turn of the loop on the server's call channel, if a call is waiting. -/
def serve (LenStackBuf : Int) (t : Tick) (st : State ι α) : State ι α :=
  (Skeleton.Run.chanCall LenStackBuf t st).getD st

/-- The call branch of the loop taken `n` times in a row, the first of them
under `ticks i`, the next under `ticks (i + 1)`, and so on. -/
def Skeleton.Run.calls (LenStackBuf : Int) (ticks : Nat → Tick) :
    Nat → Nat → State ι α → State ι α
  | _, 0, st => st
  | i, n + 1, st =>
    Skeleton.Run.calls LenStackBuf ticks (i + 1) n (serve LenStackBuf (ticks i) st)

/-- Number of replies waiting in the client's asynchronous reply channel. -/
def asynLen (st : State ι α) : Nat :=
  match st.c.ChanAsynRet with
  | none => 0
  | some q => (st.chans q).buf.length

/-- The loop dispatches every reply that is waiting. -/
def drainAsynRet (st : State ι α) : State ι α :=
  Skeleton.Run.drain (asynLen st) st

/-- How many times callback `k` has been run. -/
def cbCount (k : CbId) : List (Event ι α) → Nat
  | [] => 0
  | Event.callback j _ _ :: t => (if j = k then 1 else 0) + cbCount k t
  | _ :: t => cbCount k t

/-- The calls Exec has been entered for, oldest first. -/
def execs : List (Event ι α) → List (CallInfo ι α)
  | [] => []
  | Event.exec ci :: t => ci :: execs t
  | _ :: t => execs t

/-- The replies handed to Server.ret, oldest first. -/
def delivers : List (Event ι α) → List (RetInfo ι α)
  | [] => []
  | Event.deliver _ ri :: t => ri :: delivers t
  | _ :: t => delivers t

/-- The replies waiting in the client's asynchronous reply channel. -/
def asynBuf (st : State ι α) : List (RetInfo ι α) :=
  match st.c.ChanAsynRet with
  | none => []
  | some q => (st.chans q).buf

/-- The admission test of AsynCall, on the counter as it is before the call:
overflow disallowed and the incremented counter has reached the capacity. -/
def rejects (st : State ι α) : Bool :=
  decide (st.c.AllowOverFlood = false ∧
    (capOf st.chans st.c.ChanAsynRet : Int) ≤ st.c.pendingAsynCall + 1)

/-- A handler that returns its first argument. -/
def echo : Handler String Int :=
  fun args => Outcome.returns (args.headD Value.nil) none

/-- A handler that panics. -/
def boom : Handler String Int :=
  fun _ => Outcome.panics (Value.data 7)

/-- A server with `echo` and `boom` registered, reply timeout 10 and a call channel
of capacity `n`, a blank client, no reply channel allocated. -/
def blank (n : Nat) : State String Int :=
  ⟨⟨⟨10, 0⟩, fun id => if id = "echo" then some echo else if id = "boom" then some boom else none,
      [], n, false, [], 0⟩,
    ⟨⟨0, 0⟩, 0, none, 0, false⟩, fun _ => ⟨[], 0⟩, 0, []⟩

/-- The state `blank n` after `NewClient(size, 10)`. -/
def world (n : Nat) (size : Int) : State String Int :=
  NewClient (blank n) size 10

/-- A server whose call channel (capacity 1) is full, and a client with reply
capacity 2. -/
def busy : State String Int :=
  enqueue (world 1 2) ⟨"echo", [Value.data 0], none, none⟩

/-- A fresh client with reply capacity 3 and a server whose call channel has
capacity 1: the first asynchronous call is queued, the second one times out on
submission. -/
def timeoutRun : State String Int :=
  let s1 := (Client.AsynCall (world 1 3) "echo" [Value.data 1, Value.func 1] prompt).state
  (Client.AsynCall s1 "echo" [Value.data 2, Value.func 2] prompt).state

/-- After `timeoutRun`: the loop dispatches the waiting reply, the server executes
the queued call, the loop dispatches its reply. -/
def timeoutRunDone : State String Int :=
  drainAsynRet (serve 0 prompt (drainAsynRet timeoutRun))

end module

/-! ## Lemmas on the server side -/

namespace chanrpc

open module

variable {ι α : Type}


theorem ret_server_fields (t : Tick) (st : State ι α) (ci : CallInfo ι α) (ri : RetInfo ι α) :
    (Server.ret t st ci ri).1.s.functions = st.s.functions ∧
    (Server.ret t st ci ri).1.s.ChanCall = st.s.ChanCall ∧
    (Server.ret t st ci ri).1.s.closed = st.s.closed ∧
    (Server.ret t st ci ri).1.s.bufsize = st.s.bufsize ∧
    (Server.ret t st ci ri).1.c = st.c ∧
    (Server.ret t st ci ri).1.next = st.next ∧
    (Server.ret t st ci ri).1.trace = st.trace ++ [Event.deliver ci ri] ∧
    (Server.ret t st ci ri).2 = none ∧
    (Server.ret t st ci ri).1.s.sendq = st.s.sendq ∧
    (Server.ret t st ci ri).1.s.woken = st.s.woken ∧
    (Server.ret t st ci ri).1.s.timeout = st.s.timeout := by
  unfold Server.ret
  cases ci.chanRet with
  | none => simp
  | some k =>
    by_cases h : (hasRoom st.chans k && !timerWins (1000000 * st.s.timeout) t) = true
    · simp only [h]; simp
    · simp only [h]; simp

@[simp] theorem ret_functions (t : Tick) (st : State ι α) (ci : CallInfo ι α)
    (ri : RetInfo ι α) : (Server.ret t st ci ri).1.s.functions = st.s.functions :=
  (ret_server_fields t st ci ri).1

@[simp] theorem ret_ChanCall (t : Tick) (st : State ι α) (ci : CallInfo ι α)
    (ri : RetInfo ι α) : (Server.ret t st ci ri).1.s.ChanCall = st.s.ChanCall :=
  (ret_server_fields t st ci ri).2.1

@[simp] theorem ret_closed (t : Tick) (st : State ι α) (ci : CallInfo ι α)
    (ri : RetInfo ι α) : (Server.ret t st ci ri).1.s.closed = st.s.closed :=
  (ret_server_fields t st ci ri).2.2.1

@[simp] theorem ret_bufsize (t : Tick) (st : State ι α) (ci : CallInfo ι α)
    (ri : RetInfo ι α) : (Server.ret t st ci ri).1.s.bufsize = st.s.bufsize :=
  (ret_server_fields t st ci ri).2.2.2.1

@[simp] theorem ret_client (t : Tick) (st : State ι α) (ci : CallInfo ι α)
    (ri : RetInfo ι α) : (Server.ret t st ci ri).1.c = st.c :=
  (ret_server_fields t st ci ri).2.2.2.2.1

@[simp] theorem ret_next (t : Tick) (st : State ι α) (ci : CallInfo ι α)
    (ri : RetInfo ι α) : (Server.ret t st ci ri).1.next = st.next :=
  (ret_server_fields t st ci ri).2.2.2.2.2.1

@[simp] theorem ret_trace (t : Tick) (st : State ι α) (ci : CallInfo ι α)
    (ri : RetInfo ι α) :
    (Server.ret t st ci ri).1.trace = st.trace ++ [Event.deliver ci ri] :=
  (ret_server_fields t st ci ri).2.2.2.2.2.2.1

@[simp] theorem ret_snd (t : Tick) (st : State ι α) (ci : CallInfo ι α)
    (ri : RetInfo ι α) : (Server.ret t st ci ri).2 = none :=
  (ret_server_fields t st ci ri).2.2.2.2.2.2.2.1

@[simp] theorem ret_sendq (t : Tick) (st : State ι α) (ci : CallInfo ι α)
    (ri : RetInfo ι α) : (Server.ret t st ci ri).1.s.sendq = st.s.sendq :=
  (ret_server_fields t st ci ri).2.2.2.2.2.2.2.2.1

@[simp] theorem ret_woken (t : Tick) (st : State ι α) (ci : CallInfo ι α)
    (ri : RetInfo ι α) : (Server.ret t st ci ri).1.s.woken = st.s.woken :=
  (ret_server_fields t st ci ri).2.2.2.2.2.2.2.2.2.1

@[simp] theorem ret_timeout (t : Tick) (st : State ι α) (ci : CallInfo ι α)
    (ri : RetInfo ι α) : (Server.ret t st ci ri).1.s.timeout = st.s.timeout :=
  (ret_server_fields t st ci ri).2.2.2.2.2.2.2.2.2.2

/-- Exec is exactly one delivery attempt, of the reply computed from the table
and the handler, after the entry events. -/
theorem Exec_eq (L : Int) (t : Tick) (st : State ι α) (ci : CallInfo ι α) :
    Server.Exec L t st ci =
      ((Server.ret t { st with trace := st.trace ++ Server.Exec.events st ci } ci
        (Server.Exec.reply L st ci).1).1, (Server.Exec.reply L st ci).2) := by
  unfold Server.Exec Server.Exec.body Server.Exec.reply Server.Exec.events
  cases hf : st.s.functions ci.id with
  | none => simp [hf]
  | some f =>
    cases hr : f ci.args with
    | panics r => simp [hf, hr]
    | returns ret err => simp [hf, hr]

theorem Exec_server_fields (L : Int) (t : Tick) (st : State ι α) (ci : CallInfo ι α) :
    (Server.Exec L t st ci).1.s.functions = st.s.functions ∧
    (Server.Exec L t st ci).1.s.ChanCall = st.s.ChanCall ∧
    (Server.Exec L t st ci).1.s.closed = st.s.closed ∧
    (Server.Exec L t st ci).1.s.bufsize = st.s.bufsize ∧
    (Server.Exec L t st ci).1.c = st.c ∧
    (Server.Exec L t st ci).1.next = st.next ∧
    (Server.Exec L t st ci).1.s.sendq = st.s.sendq ∧
    (Server.Exec L t st ci).1.s.woken = st.s.woken ∧
    (Server.Exec L t st ci).1.s.timeout = st.s.timeout := by
  rw [Exec_eq]
  simp

theorem Exec_trace (L : Int) (t : Tick) (st : State ι α) (ci : CallInfo ι α) :
    (Server.Exec L t st ci).1.trace =
      st.trace ++ Server.Exec.events st ci ++
        [Event.deliver ci (Server.Exec.reply L st ci).1] := by
  rw [Exec_eq]
  simp

/-- The reply of Exec depends on the state only through the handler table. -/
theorem reply_congr (L : Int) (st st1 : State ι α) (ci : CallInfo ι α)
    (h : st1.s.functions = st.s.functions) :
    Server.Exec.reply L st1 ci = Server.Exec.reply L st ci := by
  unfold Server.Exec.reply
  rw [h]

theorem events_congr (st st1 : State ι α) (ci : CallInfo ι α)
    (h : st1.s.functions = st.s.functions) :
    Server.Exec.events st1 ci = Server.Exec.events st ci := by
  unfold Server.Exec.events
  rw [h]

/-! ## Trace projections -/

theorem execs_append (t u : List (Event ι α)) : execs (t ++ u) = execs t ++ execs u := by
  induction t with
  | nil => rfl
  | cons e t ih => cases e <;> simp [execs, ih]

theorem delivers_append (t u : List (Event ι α)) :
    delivers (t ++ u) = delivers t ++ delivers u := by
  induction t with
  | nil => rfl
  | cons e t ih => cases e <;> simp [delivers, ih]

theorem execs_events (st : State ι α) (ci : CallInfo ι α) :
    execs (Server.Exec.events st ci) = [ci] := by
  unfold Server.Exec.events
  cases st.s.functions ci.id <;> simp [execs]

theorem delivers_events (st : State ι α) (ci : CallInfo ι α) :
    delivers (Server.Exec.events st ci) = [] := by
  unfold Server.Exec.events
  cases st.s.functions ci.id <;> simp [delivers]

theorem Exec_execs (L : Int) (t : Tick) (st : State ι α) (ci : CallInfo ι α) :
    execs (Server.Exec L t st ci).1.trace = execs st.trace ++ [ci] := by
  rw [Exec_trace]
  simp [execs_append, execs_events, execs]

theorem Exec_delivers (L : Int) (t : Tick) (st : State ι α) (ci : CallInfo ι α) :
    delivers (Server.Exec L t st ci).1.trace =
      delivers st.trace ++ [(Server.Exec.reply L st ci).1] := by
  rw [Exec_trace]
  simp [delivers_append, delivers_events, delivers]

/-! ## The call channel -/

/-- One turn of the call branch on a closed-and-drained style channel: a buffered
call and no parked sender. -/
theorem serve_buffered (L : Int) (t : Tick) (st : State ι α) (ci : CallInfo ι α)
    (rest : List (CallInfo ι α)) (hq : st.s.ChanCall = ci :: rest) (hs : st.s.sendq = []) :
    serve L t st = (Server.Exec L t { st with s := { st.s with ChanCall := rest } } ci).1 := by
  simp [serve, Skeleton.Run.chanCall, recvCall, hq, hs]

/-- The loop of Close does what the call branch of the running loop does, turn
by turn. -/
theorem range_eq_calls (L : Int) (ticks : Nat → Tick) (q : List (CallInfo ι α)) :
    ∀ (i : Nat) (st : State ι α), st.s.ChanCall = q → st.s.sendq = [] →
      Server.Close.range L ticks i q st = Skeleton.Run.calls L ticks i q.length st := by
  induction q with
  | nil => intro i st _ _; rfl
  | cons ci rest ih =>
    intro i st hq hs
    have hE := Exec_server_fields L (ticks i)
      ({ st with s := { st.s with ChanCall := rest } } : State ι α) ci
    simp only [Server.Close.range, List.length_cons, Skeleton.Run.calls]
    rw [serve_buffered L (ticks i) st ci rest hq hs]
    exact ih (i + 1) _ hE.2.1 (by rw [hE.2.2.2.2.2.2.1]; exact hs)

/-- The drain loop of Close: the buffered calls are executed once each, oldest
first, each with one delivery attempt of the reply its handler gives, and
nothing else about the server changes. -/
theorem range_spec (L : Int) (ticks : Nat → Tick) (q : List (CallInfo ι α)) :
    ∀ (i : Nat) (st : State ι α), st.s.ChanCall = q →
      (Server.Close.range L ticks i q st).s.ChanCall = [] ∧
      (Server.Close.range L ticks i q st).s.closed = st.s.closed ∧
      (Server.Close.range L ticks i q st).s.functions = st.s.functions ∧
      execs (Server.Close.range L ticks i q st).trace = execs st.trace ++ q ∧
      delivers (Server.Close.range L ticks i q st).trace =
        delivers st.trace ++ q.map (fun ci => (Server.Exec.reply L st ci).1) := by
  induction q with
  | nil =>
    intro i st h
    simp [Server.Close.range, h]
  | cons ci rest ih =>
    intro i st _
    have hE := Exec_server_fields L (ticks i)
      ({ st with s := { st.s with ChanCall := rest } } : State ι α) ci
    have hX := Exec_execs L (ticks i)
      ({ st with s := { st.s with ChanCall := rest } } : State ι α) ci
    have hD := Exec_delivers L (ticks i)
      ({ st with s := { st.s with ChanCall := rest } } : State ι α) ci
    obtain ⟨h1, h2, h3, h4, h5⟩ := ih (i + 1) _ hE.2.1
    simp only [Server.Close.range]
    refine ⟨h1, ?_, ?_, ?_, ?_⟩
    · rw [h2, hE.2.2.1]
    · rw [h3, hE.1]
    · rw [h4, hX]
      simp
    · rw [h5, hD]
      have hc : ∀ cj, Server.Exec.reply L
          (Server.Exec L (ticks i) { st with s := { st.s with ChanCall := rest } } ci).1 cj
          = Server.Exec.reply L st cj := fun cj => reply_congr L st _ cj hE.1
      have hc0 : Server.Exec.reply L
          ({ st with s := { st.s with ChanCall := rest } } : State ι α) ci
          = Server.Exec.reply L st ci := reply_congr L st _ ci rfl
      simp [hc, hc0]

/-- A timed or blocking send on a closed channel returns an error and leaves the
server as it is. -/
theorem call_closed (st : State ι α) (ci : CallInfo ι α) (block : Bool) (t : Tick)
    (h : st.s.closed = true) :
    ∃ st1 e, Client.call st ci block t = Res.done st1 (some e) ∧ st1.s = st.s := by
  unfold Client.call Client.call.body
  cases block with
  | true => exact ⟨st, Err.sendOnClosed, by simp [h], rfl⟩
  | false =>
    by_cases hw : timerWins st.c.timeout t = true
    · exact ⟨timeoutBranch st, Err.serverTimeout, by simp [hw], rfl⟩
    · exact ⟨st, Err.sendOnClosed, by simp [hw, h], rfl⟩

theorem call_timer (st : State ι α) (ci : CallInfo ι α) (t : Tick)
    (hw : timerWins st.c.timeout t = true) :
    Client.call st ci false t = Res.done (timeoutBranch st) (some Err.serverTimeout) := by
  simp [Client.call, Client.call.body, hw]

theorem call_full (st : State ι α) (ci : CallInfo ι α) (t : Tick)
    (h : st.s.closed = false) (hr : ¬ st.s.ChanCall.length < st.s.bufsize) :
    Client.call st ci false t = Res.done (timeoutBranch st) (some Err.serverTimeout) := by
  by_cases hw : timerWins st.c.timeout t = true
  · exact call_timer st ci t hw
  · simp [Client.call, Client.call.body, h, callRoom, hr, hw]

/-! ## Claims on registration, execution and shutdown -/

/-- C2: a synchronous call to an id without a handler returns a nil result and a
non-nil error (the validation error), and the whole state is the one before the
call: call queue, handler table, drop counters, trace of executions.  The
package-level SynCall, which builds a throwaway client first, returns the same
pair and leaves the server and the trace as they were. -/
theorem SynCall_unregistered (env : State ι α → State ι α) (st : State ι α) (id : ι)
    (args : List (Value α)) (h : st.s.functions id = none) :
    Client.SynCall env st id args = Res.done st (Value.nil, some (Err.notRegistered id)) ∧
    ∃ st1, SynCall env st id args = Res.done st1 (Value.nil, some (Err.notRegistered id)) ∧
      st1.s = st.s ∧ st1.trace = st.trace := by
  constructor
  · simp [Client.SynCall, validate, h]
  · have hs : (NewClient st 0 1000000000).s = st.s := by
      simp [NewClient, makeChan]
    refine ⟨NewClient st 0 1000000000, ?_, hs, ?_⟩
    · unfold SynCall Client.SynCall
      simp [validate, hs, h]
    · simp [NewClient, makeChan]

theorem SynCall_unregistered_witness :
    (blank 1).s.functions "nope" = none ∧
    Client.SynCall id (blank 1) "nope" [Value.data 42] =
      Res.done (blank 1) (Value.nil, some (Err.notRegistered "nope")) :=
  ⟨rfl, (SynCall_unregistered id (blank 1) "nope" [Value.data 42] rfl).1⟩

/-- C8: Register panics exactly when the id already has a handler, and then the
server is the one before the call; otherwise it returns, the table maps the id
to the new handler, and every other id keeps its entry. -/
theorem Register_spec [DecidableEq ι] (s : Server ι α) (id : ι) (f : Handler ι α) :
    ((∃ s1 m, Server.Register s id f = Res.panicked s1 m) ↔ s.functions id ≠ none) ∧
    (∀ s1 m, Server.Register s id f = Res.panicked s1 m → s1 = s) ∧
    (s.functions id = none →
      ∃ s1, Server.Register s id f = Res.done s1 () ∧ s1.functions id = some f ∧
        ∀ j, j ≠ id → s1.functions j = s.functions j) := by
  unfold Server.Register
  cases h : s.functions id with
  | none =>
    refine ⟨by simp, by simp, fun _ => ⟨_, rfl, by simp, ?_⟩⟩
    intro j hj
    simp [hj]
  | some g =>
    refine ⟨by simp, ?_, by simp⟩
    intro s1 m hp
    injection hp with h1 _
    exact h1.symm

theorem Register_spec_witness :
    (∃ s1 m, Server.Register (blank 1).s "echo" boom = Res.panicked s1 m) ∧
    (∃ s1, Server.Register (blank 1).s "ping" echo = Res.done s1 () ∧
      s1.functions "ping" = some echo ∧
      ∀ j, j ≠ "ping" → s1.functions j = (blank 1).s.functions j) :=
  ⟨(Register_spec (blank 1).s "echo" boom).1.2 (by simp [blank]),
   (Register_spec (blank 1).s "ping" echo).2.2 rfl⟩

/-- C10 (counterexample): a timed submission to a server whose call queue (capacity
1, one call queued) is full reports the timeout error and leaves the queue
alone, but the server's drop counter is 0 before and 0 after; the counter that
moves is the client's. -/
theorem call_timeout_counterexample :
    Client.call.body busy ⟨"echo", [Value.data 1], some 1, none⟩ false prompt =
      Res.done (Client.call busy ⟨"echo", [Value.data 1], some 1, none⟩ false prompt).state
        (Except.ok (some Err.serverTimeout)) ∧
    busy.s.SkipCounter = 0 ∧
    (Client.call busy ⟨"echo", [Value.data 1], some 1, none⟩ false prompt).state.s.SkipCounter
      = 0 ∧
    (Client.call busy ⟨"echo", [Value.data 1], some 1, none⟩ false prompt).state.c.SkipCounter
      = 1 ∧
    (Client.call busy ⟨"echo", [Value.data 1], some 1, none⟩ false prompt).state.s.ChanCall
      = busy.s.ChanCall := by
  refine ⟨rfl, by decide, by decide, by decide, by decide⟩

/-- C10 (amended): a timed submission that finds the open server's call queue full
for the whole submission timeout returns the error "server timeout", leaves the
server (queue, table, the server's drop counter) unchanged, and makes the
client's drop counter exactly one greater, whatever the scheduler does. -/
theorem call_timeout (st : State ι α) (ci : CallInfo ι α) (t : Tick)
    (hopen : st.s.closed = false) (hfull : ¬ st.s.ChanCall.length < st.s.bufsize) :
    ∃ st1, Client.call st ci false t = Res.done st1 (some Err.serverTimeout) ∧
      st1.s = st.s ∧ st1.c.SkipCounter = st.c.SkipCounter + 1 := by
  rw [call_full st ci t hopen hfull]
  exact ⟨_, rfl, rfl, rfl⟩

theorem call_timeout_witness :
    ∃ st1, Client.call busy ⟨"echo", [Value.data 1], some 1, none⟩ false prompt =
        Res.done st1 (some Err.serverTimeout) ∧
      st1.s = busy.s ∧ st1.c.SkipCounter = busy.c.SkipCounter + 1 :=
  call_timeout busy ⟨"echo", [Value.data 1], some 1, none⟩ prompt rfl (by decide)

/-- C7: Close on an open server returns.  What it does to the state is what the
call branch of the running loop does in K turns on the closed channel, K the
number of queued calls: each queued call is received and executed with Exec,
once, oldest first, and nothing else is executed, each execution making its one
delivery attempt with the reply its handler gives.  Afterwards the queue is
empty and the channel closed, and every later submission, blocking or timed and
whatever the scheduler does, returns a non-nil error and leaves the server, so
the queue, as it was. -/
theorem Close_drains_then_rejects (L : Int) (ticks : Nat → Tick) (st : State ι α)
    (hopen : st.s.closed = false) :
    ∃ st1, Server.Close L ticks st = Res.done st1 () ∧
      st1 = Skeleton.Run.calls L ticks 0 st.s.ChanCall.length (closeChan st) ∧
      execs st1.trace = execs st.trace ++ st.s.ChanCall ∧
      delivers st1.trace =
        delivers st.trace ++ st.s.ChanCall.map (fun ci => (Server.Exec.reply L st ci).1) ∧
      st1.s.ChanCall = [] ∧
      st1.s.closed = true ∧
      ∀ (ci : CallInfo ι α) (block : Bool) (t : Tick),
        ∃ st2 e, Client.call st1 ci block t = Res.done st2 (some e) ∧ st2.s = st1.s := by
  have h := range_spec L ticks st.s.ChanCall 0 (closeChan st) rfl
  have hc := range_eq_calls L ticks st.s.ChanCall 0 (closeChan st) rfl rfl
  refine ⟨_, by simp [Server.Close, hopen, closeChan], ?_, h.2.2.2.1, ?_, h.1, h.2.1, ?_⟩
  · exact hc
  · rw [h.2.2.2.2]
    have hfun : (fun ci => (Server.Exec.reply L (closeChan st) ci).1)
        = (fun ci => (Server.Exec.reply L st ci).1) := by
      funext cj
      rw [reply_congr L st (closeChan st) cj rfl]
    rw [hfun]
    rfl
  · intro ci block t
    exact call_closed _ ci block t h.2.1

theorem Close_drains_then_rejects_witness :
    ∃ st1, Server.Close 0 (fun _ => prompt)
        (enqueue (enqueue (world 2 0) ⟨"echo", [Value.data 1], none, none⟩)
          ⟨"boom", [], none, none⟩) = Res.done st1 () ∧
      st1.s.ChanCall = [] ∧
      delivers st1.trace =
        [⟨Value.data 1, none, none⟩,
         ⟨Value.nil, some (Err.recovered (PanicVal.raised (Value.data 7)) false), none⟩] := by
  obtain ⟨st1, h1, _, _, h4, h5, _, _⟩ := Close_drains_then_rejects 0 (fun _ => prompt)
    (enqueue (enqueue (world 2 0) ⟨"echo", [Value.data 1], none, none⟩)
      ⟨"boom", [], none, none⟩) rfl
  exact ⟨st1, h1, h5, by rw [h4]; rfl⟩

/-! ## Receiving from the call channel -/

theorem getLast_snoc (args : List (Value α)) (v : Value α) :
    (args ++ [v]).getLast? = some v := by
  simp

theorem splitArgs_func (args : List (Value α)) (k : CbId) :
    splitArgs (args ++ [Value.func k]) (Value.func k) = (args, some k) := by
  simp [splitArgs]

/-- AsynCall with a trailing callback, unfolded up to the admission test. -/
theorem AsynCall_unfold (st : State ι α) (id : ι) (args : List (Value α)) (k : CbId)
    (t : Tick) :
    Client.AsynCall st id (args ++ [Value.func k]) t =
      if rejects st = true then
        Res.done (Client.Cb (bump st) ⟨Value.nil, some Err.tooManyCalls, some k⟩) none
      else
        match validate (bump st).s id with
        | (_, some err) =>
          match sendAsynRet (bump st) ⟨Value.nil, some err, some k⟩ with
          | none => Res.blocked (bump st)
          | some st2 => Res.done st2 (some (Err.noMatching id))
        | (_, none) =>
          match Client.call (bump st) ⟨id, args, (bump st).c.ChanAsynRet, some k⟩ false t with
          | Res.blocked st2 => Res.blocked st2
          | Res.panicked st2 m => Res.panicked st2 m
          | Res.done st2 none => Res.done st2 none
          | Res.done st2 (some err) =>
            match sendAsynRet st2 ⟨Value.nil, some err, some k⟩ with
            | none => Res.blocked st2
            | some st3 => Res.done st3 (some err) := by
  unfold Client.AsynCall
  simp only [getLast_snoc, splitArgs_func]
  by_cases h : rejects st = true
  · have h2 := h
    simp only [rejects, decide_eq_true_eq] at h2
    simp [h, bump, h2.1, h2.2]
  · have h2 := h
    simp only [rejects, decide_eq_true_eq] at h2
    simp only [h]
    have h3 : ¬ ((bump st).c.AllowOverFlood = false ∧
        (capOf (bump st).chans (bump st).c.ChanAsynRet : Int) ≤ (bump st).c.pendingAsynCall) := h2
    rw [if_neg h3]
    rfl

theorem AsynCall_rejected (st : State ι α) (id : ι) (args : List (Value α)) (k : CbId)
    (t : Tick) (h : rejects st = true) :
    Client.AsynCall st id (args ++ [Value.func k]) t =
      Res.done (Client.Cb (bump st) ⟨Value.nil, some Err.tooManyCalls, some k⟩) none := by
  rw [AsynCall_unfold, if_pos h]

/-- C3 (the code at capacity 1): the default asynchronous capacity of a module is
1; on a fresh client with capacity 1 and overflow disallowed, with no pending
call, the first AsynCall to the registered id "echo" is rejected, whatever the
scheduler does: it returns nil, nothing is queued on the server, the callback
is run with "too many calls", and the counter is back to 0. -/
theorem AsynCall_capacity_one_first_call (t : Tick) :
    (Skeleton.Init.defaults ⟨0, 0, 0, 0, 0⟩).AsynCallLen = 1 ∧
    (Skeleton.Init ⟨0, 0, 0, 0, 0⟩ (blank 1)).map (fun r => r.2.1.c) = some (world 1 1).c ∧
    capOf (world 1 1).chans (world 1 1).c.ChanAsynRet = 1 ∧
    (world 1 1).c.AllowOverFlood = false ∧
    (world 1 1).c.pendingAsynCall = 0 ∧
    Client.AsynCall (world 1 1) "echo" [Value.data 42, Value.func 1] t =
      Res.done (Client.AsynCall (world 1 1) "echo" [Value.data 42, Value.func 1] t).state none ∧
    (Client.AsynCall (world 1 1) "echo" [Value.data 42, Value.func 1] t).state.s.ChanCall = [] ∧
    (Client.AsynCall (world 1 1) "echo" [Value.data 42, Value.func 1] t).state.trace =
      [Event.callback 1 Value.nil (some Err.tooManyCalls)] ∧
    (Client.AsynCall (world 1 1) "echo" [Value.data 42, Value.func 1] t).state.c.pendingAsynCall
      = 0 := by
  have h := AsynCall_rejected (world 1 1) "echo" [Value.data 42] 1 t (by decide)
  have h2 : Client.AsynCall (world 1 1) "echo" [Value.data 42, Value.func 1] t =
      Res.done (Client.Cb (bump (world 1 1)) ⟨Value.nil, some Err.tooManyCalls, some 1⟩) none := h
  rw [h2]
  refine ⟨by decide, by decide, by decide, by decide, by decide, rfl, by decide, by decide,
    by decide⟩

/-- C5 (the code on the submission-timeout path): from a fresh client, two
AsynCalls of which the second times out leave the counter at 1 with two calls
submitted and no callback dispatched; once both callbacks have been dispatched,
one time each, the counter is -1. -/
theorem pending_counter_timeout_run :
    (world 1 3).c.pendingAsynCall = 0 ∧
    timeoutRun.c.pendingAsynCall = 1 ∧
    cbCount 1 timeoutRun.trace + cbCount 2 timeoutRun.trace = 0 ∧
    timeoutRun.s.ChanCall.map (fun ci => ci.cb) = [some 1] ∧
    (asynBuf timeoutRun) = [⟨Value.nil, some Err.serverTimeout, some 2⟩] ∧
    timeoutRunDone.c.pendingAsynCall = -1 ∧
    timeoutRunDone.s.ChanCall = [] ∧ asynBuf timeoutRunDone = [] ∧
    cbCount 1 timeoutRunDone.trace = 1 ∧ cbCount 2 timeoutRunDone.trace = 1 := by
  refine ⟨by decide, by decide, by decide, by decide, by decide, by decide, by decide,
    by decide, by decide, by decide⟩

end chanrpc
